import Mathlib

/-!
Verification of `src/benchy/benchmark.py` against its specification.

The file shallowly embeds the module: `magic_timeit` (the adaptive timer),
`Benchmark` (definition, checksum, run), `BenchmarkSuite.benchmarks` and
`gather_benchmarks` (discovery).  Python's dynamic execution of user-supplied
code text (`exec`, `timeit.Timer`) is modelled by injectable behaviours: a
`Clock` gives the wall-clock duration (or the exception) of each timed call,
and a `RunBehavior` gives the outcome of executing the setup and cleanup
snippets.  Wall-clock durations are exact rationals; `math.log10`/`floor` on
floats is modelled exactly by `Int.log` on `ℚ` (none of the verified inputs
sits on a floating-point boundary).
-/

/-- A raised Python exception, identified by its message text. -/
structure PyErr where
  msg : String
deriving DecidableEq, Repr

/-- Injectable model of `timeit.Timer` as used by `magic_timeit`: `c i n` is
the outcome of the i-th timed call overall (counted from 0) when it executes
the compiled statement `n` times in the evaluation namespace — the elapsed
wall-clock seconds, or the exception the user code raised during the call. -/
def Clock : Type := Nat → Nat → Except PyErr ℚ

/-- A clock whose trial time depends only on the iteration count and never
raises (the spec's "injectable clock" for calibration properties). -/
def pureClock (f : Nat → ℚ) : Clock := fun _ n => .ok (f n)

/-- A clock that never raises but may vary from call to call. -/
def okClock (f : Nat → Nat → ℚ) : Clock := fun i n => .ok (f i n)

/-- A clock returning the i-th element of `l` on the i-th call (used for the
spec's trial-time examples such as `[5, 2, 8]`). -/
def listClock (l : List ℚ) : Clock := fun i _ => .ok (l.getD i 0)

/-- A clock every one of whose calls takes `q` seconds. -/
def oneTrial (q : ℚ) : Clock := fun _ _ => .ok q

/-- `timeit.Timer.repeat(r, n)` starting at overall call index `i`: a list of
`r` trial times, or the first exception the timed code raised. -/
def timerRepeat (c : Clock) (i : Nat) : Nat → Nat → Except PyErr (List ℚ)
  | 0, _ => .ok []
  | r + 1, n =>
    match c i n with
    | .error e => .error e
    | .ok t =>
      match timerRepeat c (i + 1) r n with
      | .error e => .error e
      | .ok ts => .ok (t :: ts)

/-- The calibration loop of `magic_timeit` (benchmark.py lines 234-240):
`number = 1; for _ in range(1, 10): if timer.timeit(number) >= 0.1: break;
number *= 10`.  `k` is the remaining loop iterations, `i` the next overall
call index, `number` the current count.  Returns the chosen count and the
index of the next timed call. -/
def calibrateLoop (c : Clock) : Nat → Nat → Nat → Except PyErr (Nat × Nat)
  | 0, i, number => .ok (number, i)
  | k + 1, i, number =>
    match c i number with
    | .error e => .error e
    | .ok t =>
      if t ≥ 1 / 10 then .ok (number, i + 1)
      else calibrateLoop c k (i + 1) (number * 10)

/-- Calibration as `magic_timeit` enters it: `number = 1`, nine loop
iterations, first timed call has index 0. -/
def calibrate (c : Clock) : Except PyErr (Nat × Nat) := calibrateLoop c 9 0 1

/-- The iteration counts whose trials the calibration loop can ever time
(the loop body runs nine times, so `10^9` itself is never timed). -/
def attemptSizes : List Nat :=
  [1, 10, 100, 1000, 10000, 100000, 1000000, 10000000, 100000000]

/-- Successful timing result of `magic_timeit` (benchmark.py lines 256-259):
the dict `{loops, repeat, timing, units}`. -/
structure TimingOk where
  loops : Nat
  «repeat» : Nat
  timing : ℚ
  units : String
deriving DecidableEq, Repr

/-- `units = ["s", "ms", 'us', "ns"]` (benchmark.py line 215). -/
def unitNames : List String := ["s", "ms", "us", "ns"]

/-- `scaling = [1, 1e3, 1e6, 1e9]` (benchmark.py line 216). -/
def scaling : List ℚ := [1, 1000, 1000000, 1000000000]

/-- Unit order selection (benchmark.py lines 246-254).  Python's `//` on the
value of `math.floor` is floor division by the positive constant 3, written
here as `Int.fdiv`; `math.floor(math.log10 best)` is exactly `Int.log 10
best` for the rational model of `best`. -/
def pyOrder (force_ms : Bool) (best : ℚ) : Nat :=
  if force_ms then 1
  else if 0 < best ∧ best < 1000 then (min (-(Int.fdiv (Int.log 10 best) 3)) 3).toNat
  else if 1000 ≤ best then 0
  else 3

/-- `magic_timeit(ns, stmt, ncalls, repeat, force_ms)` (benchmark.py lines
155-259).  The compiled statement's timed executions are represented by the
clock `c`.  If `ncalls is None` the count is calibrated, else it is taken as
given; then `best = min(timer.repeat(repeat, number)) / number` and the
result is scaled into the chosen unit.  Python's runtime errors on degenerate
inputs are modelled as the errors they raise: `min([])` raises `ValueError`
when `repeat` is 0, and the division raises `ZeroDivisionError` when
`number` is 0. -/
def magic_timeit (c : Clock) (ncalls : Option Nat) (rep : Nat := 3)
    (force_ms : Bool := false) : Except PyErr TimingOk :=
  match (match ncalls with
         | none => calibrate c
         | some n => .ok (n, 0) : Except PyErr (Nat × Nat)) with
  | .error e => .error e
  | .ok (number, i) =>
    match timerRepeat c i rep number with
    | .error e => .error e
    | .ok trials =>
      match trials.min? with
      | none => .error { msg := "ValueError: min arg is an empty sequence" }
      | some m =>
        if number = 0 then .error { msg := "ZeroDivisionError: float division by zero" }
        else
          .ok { loops := number
                «repeat» := rep
                timing := m / (number : ℚ) * scaling.getD (pyOrder force_ms (m / (number : ℚ))) 0
                units := unitNames.getD (pyOrder force_ms (m / (number : ℚ))) "ns" }

/-- Model of `hashlib.md5(...).hexdigest()`, an external library call.  The
spec treats it as a collision-resistant content hash, so it is idealized as a
collision-free (injective) function of the hashed text; the identity is the
canonical such model.  Every fingerprint statement below depends only on
this injectivity, and the fingerprint collision exhibited for C1 arises in
the hash's argument, so it is a collision of the real `md5` as well. -/
def md5hex (s : String) : String := s

/-- `Benchmark.__init__` (benchmark.py lines 10-22), field for field, in the
constructor's order and with its defaults; `cleanup or ''` stores a plain
string that defaults to empty. -/
structure Benchmark where
  code : String
  setup : String
  ncalls : Option Nat := none
  «repeat» : Nat := 3
  cleanup : String := ""
  name : Option String := none
  description : Option String := none
  start_date : Option String := none
  logy : Bool := false
  db_path : Option String := none
deriving DecidableEq, Repr

/-- `Benchmark.checksum` (benchmark.py lines 32-34):
`md5(self.setup + self.code + self.cleanup).hexdigest()`. -/
def Benchmark.checksum (b : Benchmark) : String :=
  md5hex (b.setup ++ b.code ++ b.cleanup)

/-- The dict `Benchmark.run` returns: `{'success': True, ...timing fields}`
on the success path, `{'success': False, 'traceback': text}` on the failure
path (which carries no `timing`, `loops` or `units` keys). -/
inductive RunResult where
  | success (t : TimingOk)
  | failure (traceback : String)
deriving DecidableEq, Repr

/-- The text `traceback.print_exc` writes into the `StringIO` buffer for a
caught exception: the header line followed by the diagnostic, never empty. -/
def tracebackText (e : PyErr) : String :=
  "Traceback (most recent call last):\n" ++ e.msg ++ "\n"

/-- Injectable behaviour of one `Benchmark.run`/`_setup`/`_cleanup` cycle over
an environment type `E`: what `exec self.setup in ns` produces (a fresh
environment, or the exception it raises), how the timed statement behaves in
that environment (a `Clock`), and what `exec self.cleanup in ns` does to the
environment (or the exception it raises).  The environment is returned by
`run` below so that the snippets' side effects are observable. -/
structure RunBehavior (E : Type) where
  setupExec : Except PyErr E
  clockOf : E → Clock
  cleanupExec : E → Except PyErr E

/-- `Benchmark.run` (benchmark.py lines 59-73): build the namespace via
`_setup` (its exceptions propagate), time `self.code` with
`magic_timeit(ns, self.code, ncalls=self.ncalls, repeat=self.repeat,
force_ms=True)` inside a bare `try/except` that converts any exception into
`{'success': False, 'traceback': ...}`, then run `_cleanup(ns)` outside the
`try` (its exceptions propagate), and return the result. -/
def Benchmark.run {E : Type} (b : Benchmark) (bhv : RunBehavior E) :
    Except PyErr (RunResult × E) :=
  match bhv.setupExec with
  | .error e => .error e
  | .ok ns =>
    let result : RunResult :=
      match magic_timeit (bhv.clockOf ns) b.ncalls b.«repeat» true with
      | .ok t => .success t
      | .error e => .failure (tracebackText e)
    match bhv.cleanupExec ns with
    | .error e => .error e
    | .ok ns2 => .ok (result, ns2)

/-- A value bound in the scanned namespace or stored in a `BenchmarkSuite`:
a `Benchmark`, a `BenchmarkSuite` (an ordered list of arbitrary values), or
some other object (a string, an integer). -/
inductive PyVal where
  | bench (b : Benchmark)
  | suite (elems : List PyVal)
  | str (s : String)
  | int (z : Int)

/-- `BenchmarkSuite.benchmarks` (benchmark.py lines 144-147):
`filter(lambda elem: isinstance(elem, Benchmark), self)` — keeps exactly the
members that are `Benchmark`s, in order; everything else (nested suites
included) is discarded. -/
def suiteBenchmarks (elems : List PyVal) : List Benchmark :=
  elems.filterMap fun e =>
    match e with
    | .bench b => some b
    | _ => none

/-- `gather_benchmarks(ns)` (benchmark.py lines 262-269): walk the mapping's
values in order, appending each `Benchmark` and extending with
`v.benchmarks` for each `BenchmarkSuite`; other values are ignored. -/
def gather_benchmarks (ns : List (String × PyVal)) : List Benchmark :=
  ns.foldl
    (fun benchmarks p =>
      match p.2 with
      | .bench v => benchmarks ++ [v]
      | .suite elems => benchmarks ++ suiteBenchmarks elems
      | _ => benchmarks)
    []

/-- Modelled from the amended discovery contract: flattening keeps, in
traversal order, the top-level `Benchmark`s and the `Benchmark`s that are
direct members of a top-level `BenchmarkSuite`; members of a suite nested
inside another suite are discarded along with the nested suite (there is no
recursion). -/
def flattenOneLevel (ns : List (String × PyVal)) : List Benchmark :=
  ns.flatMap fun p =>
    match p.2 with
    | .bench b => [b]
    | .suite elems => elems.filterMap fun e =>
        match e with
        | .bench b => some b
        | _ => none
    | _ => []

/-! ### Concrete data used by counterexamples and witnesses -/

/-- First benchmark of the C1 collision pair: `setup = "ab"`, `code = "c"`. -/
def dHashA : Benchmark :=
  { code := "c", setup := "ab", name := some "first", description := some "metadata one" }

/-- Second benchmark of the C1 collision pair: `setup = "a"`, `code = "bc"`,
with different metadata throughout. -/
def dHashB : Benchmark :=
  { code := "bc", setup := "a", name := some "second", ncalls := some 7, «repeat» := 5 }

/-- Three distinct benchmark definitions for the discovery example. -/
def dDiscA : Benchmark := { code := "a()", setup := "sa" }

/-- Second discovery benchmark. -/
def dDiscB : Benchmark := { code := "b()", setup := "sb" }

/-- Third discovery benchmark, the one inside the nested collection. -/
def dDiscC : Benchmark := { code := "nested()", setup := "sc" }

/-- The namespace of the spec's flattening example:
`{a: BenchmarkDefinition, b: BenchmarkCollection([BenchmarkDefinition,
"not a benchmark", BenchmarkCollection([BenchmarkDefinition])]), c: 42}`. -/
def exampleNamespace : List (String × PyVal) :=
  [("a", .bench dDiscA),
   ("b", .suite [.bench dDiscB, .str "not a benchmark", .suite [.bench dDiscC]]),
   ("c", .int 42)]

/-! ### Claim C1 — fingerprint identity -/

/-- Claim C1, counterexample: two benchmark definitions with different
`(setup, code, cleanup)` triples — `("ab", "c", "")` and `("a", "bc", "")` —
have the same fingerprint, because the checksum hashes the bare concatenation
`setup + code + cleanup` and both concatenate to `"abc"`.  The "only if"
half of the claimed equivalence is false (and it fails for the real `md5`
too, since the hash receives identical input). -/
theorem checksum_collision_distinct_triples :
    dHashA.checksum = dHashB.checksum ∧
      (dHashA.setup, dHashA.code, dHashA.cleanup) ≠
        (dHashB.setup, dHashB.code, dHashB.cleanup) :=
  ⟨rfl, by decide⟩

/-- Claim C1 (amended): `fingerprint(d1) == fingerprint(d2)` iff the
concatenations `setup + code + cleanup` of `d1` and `d2` coincide.  Equal
`(setup, code, cleanup)` triples therefore always give equal fingerprints,
independent of `name`, `description`, `iterations` and all other metadata —
but distinct triples with the same concatenation collide, so triple equality
is sufficient, not necessary. -/
theorem checksum_determined_by_concatenation (b1 b2 : Benchmark) :
    (b1.checksum = b2.checksum ↔
      b1.setup ++ b1.code ++ b1.cleanup = b2.setup ++ b2.code ++ b2.cleanup) ∧
      (b1.setup = b2.setup → b1.code = b2.code → b1.cleanup = b2.cleanup →
        b1.checksum = b2.checksum) := by
  refine ⟨Iff.rfl, fun hs hc hcl => ?_⟩
  simp [Benchmark.checksum, md5hex, hs, hc, hcl]

/-! ### Claim C8 — setup failures propagate -/

/-- Claim C8: if executing the setup text raises, `run` propagates that very
exception and produces no `TimingResult`; the equation holds for every
possible behaviour of the timed code and of the cleanup text, so neither is
executed (no behaviour of theirs can influence the outcome). -/
theorem setup_failure_propagates {E : Type} (b : Benchmark) (e : PyErr)
    (clockOf : E → Clock) (cl : E → Except PyErr E) :
    Benchmark.run b { setupExec := .error e, clockOf := clockOf, cleanupExec := cl } =
      .error e :=
  rfl

/-! ### Claim C5 — discovery flattening -/

/-- Claim C5, counterexample: the spec's example namespace flattens to
exactly 2 benchmark definitions, not 3 — `BenchmarkSuite.benchmarks` filters
on `isinstance(elem, Benchmark)` only, so the nested collection (and the
benchmark inside it) is silently discarded, contradicting "recursively
extracted from nested BenchmarkCollections". -/
theorem gather_drops_nested_collection :
    gather_benchmarks exampleNamespace = [dDiscA, dDiscB] ∧
      (gather_benchmarks exampleNamespace).length ≠ 3 :=
  ⟨rfl, by decide⟩

/-- Claim C5 (amended): for every namespace mapping, `gather_benchmarks`
returns, in traversal order, exactly the values that are `Benchmark`s plus
the `Benchmark`s that are direct members of top-level `BenchmarkSuite`s;
non-benchmark members of a suite are silently discarded, as is anything
nested one level deeper (there is no recursion into nested collections), all
other values are ignored, and nothing is deduplicated. -/
theorem gather_benchmarks_one_level (ns : List (String × PyVal)) :
    gather_benchmarks ns = flattenOneLevel ns := by
  suffices h : ∀ acc : List Benchmark,
      ns.foldl
        (fun benchmarks p =>
          match p.2 with
          | .bench v => benchmarks ++ [v]
          | .suite elems => benchmarks ++ suiteBenchmarks elems
          | _ => benchmarks)
        acc = acc ++ flattenOneLevel ns by
    simpa [gather_benchmarks] using h []
  induction ns with
  | nil => intro acc; simp [flattenOneLevel]
  | cons hd tl ih =>
    intro acc
    cases hv : hd.2 <;>
      simp only [List.foldl_cons, hv] <;>
      rw [ih] <;>
      simp [flattenOneLevel, suiteBenchmarks, List.flatMap_cons, hv, List.append_assoc]

/-! ### Claim C2 — calibration -/

/-- A clock that raises if it is ever asked to time a trial of `10^9`
iterations and reports a below-threshold time for everything else.  That
calibration nevertheless succeeds proves `10^9` is never timed. -/
def poisonClock : Clock := fun _ n =>
  if n = 1000000000 then .error { msg := "timed the count calibration settled on" } else .ok 0

/-- Claim C2, counterexample: when no timed trial ever reaches the 0.1 s
threshold, calibration settles on `10^9` — ten times the last timed count
`10^8`, not "the last attempted (timed) count" as claimed.  The clock used
here raises on any attempt to time `10^9`, so the successful outcome also
shows the chosen count itself is never timed. -/
theorem calibrate_returns_untimed_count :
    calibrate poisonClock = .ok (1000000000, 9) ∧ (1000000000 : Nat) ≠ 100000000 := by
  constructor
  · norm_num [calibrate, calibrateLoop, poisonClock]
  · decide

/-- Claim C2 (amended): with an injectable clock whose trial time depends on
the iteration count, calibration starts at 1 and multiplies by 10, timing at
most the nine counts `1, 10, ..., 10^8`; it stops at the first timed count
whose single trial takes at least 0.1 s, having timed exactly the counts
before it; if no timed count reaches the threshold, the count used is
`10^9`, ten times the last timed count. -/
theorem calibrate_characterization (f : Nat → ℚ) :
    (∃ k, k ≤ 8 ∧ 1 / 10 ≤ f (attemptSizes.getD k 0) ∧
        (∀ j, j < k → f (attemptSizes.getD j 0) < 1 / 10) ∧
        calibrate (pureClock f) = .ok (attemptSizes.getD k 0, k + 1)) ∨
      ((∀ j, j ≤ 8 → f (attemptSizes.getD j 0) < 1 / 10) ∧
        calibrate (pureClock f) = .ok (1000000000, 9)) := by
  by_cases h0 : 1 / 10 ≤ f 1
  · exact .inl ⟨0, by omega, h0, fun j hj => absurd hj (by omega),
      by norm_num [calibrate, calibrateLoop, pureClock, attemptSizes, h0]⟩
  by_cases h1 : 1 / 10 ≤ f 10
  · refine .inl ⟨1, by omega, h1, ?_,
      by norm_num [calibrate, calibrateLoop, pureClock, attemptSizes, h0, h1]⟩
    intro j hj
    interval_cases j
    exact not_le.mp h0
  by_cases h2 : 1 / 10 ≤ f 100
  · refine .inl ⟨2, by omega, h2, ?_,
      by norm_num [calibrate, calibrateLoop, pureClock, attemptSizes, h0, h1, h2]⟩
    intro j hj
    interval_cases j
    exacts [not_le.mp h0, not_le.mp h1]
  by_cases h3 : 1 / 10 ≤ f 1000
  · refine .inl ⟨3, by omega, h3, ?_,
      by norm_num [calibrate, calibrateLoop, pureClock, attemptSizes, h0, h1, h2, h3]⟩
    intro j hj
    interval_cases j
    exacts [not_le.mp h0, not_le.mp h1, not_le.mp h2]
  by_cases h4 : 1 / 10 ≤ f 10000
  · refine .inl ⟨4, by omega, h4, ?_,
      by norm_num [calibrate, calibrateLoop, pureClock, attemptSizes, h0, h1, h2, h3, h4]⟩
    intro j hj
    interval_cases j
    exacts [not_le.mp h0, not_le.mp h1, not_le.mp h2, not_le.mp h3]
  by_cases h5 : 1 / 10 ≤ f 100000
  · refine .inl ⟨5, by omega, h5, ?_,
      by norm_num [calibrate, calibrateLoop, pureClock, attemptSizes, h0, h1, h2, h3, h4, h5]⟩
    intro j hj
    interval_cases j
    exacts [not_le.mp h0, not_le.mp h1, not_le.mp h2, not_le.mp h3, not_le.mp h4]
  by_cases h6 : 1 / 10 ≤ f 1000000
  · refine .inl ⟨6, by omega, h6, ?_,
      by norm_num [calibrate, calibrateLoop, pureClock, attemptSizes,
        h0, h1, h2, h3, h4, h5, h6]⟩
    intro j hj
    interval_cases j
    exacts [not_le.mp h0, not_le.mp h1, not_le.mp h2, not_le.mp h3, not_le.mp h4, not_le.mp h5]
  by_cases h7 : 1 / 10 ≤ f 10000000
  · refine .inl ⟨7, by omega, h7, ?_,
      by norm_num [calibrate, calibrateLoop, pureClock, attemptSizes,
        h0, h1, h2, h3, h4, h5, h6, h7]⟩
    intro j hj
    interval_cases j
    exacts [not_le.mp h0, not_le.mp h1, not_le.mp h2, not_le.mp h3, not_le.mp h4,
      not_le.mp h5, not_le.mp h6]
  by_cases h8 : 1 / 10 ≤ f 100000000
  · refine .inl ⟨8, by omega, h8, ?_,
      by norm_num [calibrate, calibrateLoop, pureClock, attemptSizes,
        h0, h1, h2, h3, h4, h5, h6, h7, h8]⟩
    intro j hj
    interval_cases j
    exacts [not_le.mp h0, not_le.mp h1, not_le.mp h2, not_le.mp h3, not_le.mp h4,
      not_le.mp h5, not_le.mp h6, not_le.mp h7]
  · refine .inr ⟨?_,
      by norm_num [calibrate, calibrateLoop, pureClock, h0, h1, h2, h3, h4, h5, h6, h7, h8]⟩
    intro j hj
    interval_cases j
    exacts [not_le.mp h0, not_le.mp h1, not_le.mp h2, not_le.mp h3, not_le.mp h4,
      not_le.mp h5, not_le.mp h6, not_le.mp h7, not_le.mp h8]

/-! ### Claim C6 — cleanup always runs -/

/-- Claim C6: once setup has succeeded, the cleanup text is executed exactly
once, in the environment setup produced, after timing — whatever the timed
code does (the clock is arbitrary, so this covers the success path and the
failure path alike); the environment here counts cleanup executions, and the
final count is one.  And when cleanup itself raises, the exception is not
swallowed: it propagates to the caller. -/
theorem cleanup_runs_once_and_propagates (b : Benchmark) (n0 : Nat) (clockOf : Nat → Clock) :
    (∃ r : RunResult,
        Benchmark.run b
            { setupExec := .ok n0, clockOf := clockOf, cleanupExec := fun n => .ok (n + 1) } =
          .ok (r, n0 + 1)) ∧
      ∀ e : PyErr,
        Benchmark.run b
            { setupExec := .ok n0, clockOf := clockOf, cleanupExec := fun _ => .error e } =
          .error e := by
  constructor
  · cases hmt : magic_timeit (clockOf n0) b.ncalls b.«repeat» true with
    | error e => exact ⟨.failure (tracebackText e), by simp [Benchmark.run, hmt]⟩
    | ok t => exact ⟨.success t, by simp [Benchmark.run, hmt]⟩
  · intro e
    cases hmt : magic_timeit (clockOf n0) b.ncalls b.«repeat» true <;>
      simp [Benchmark.run, hmt]

/-! ### Claim C7 — execution failures are isolated -/

/-- The captured trace is never the empty string. -/
theorem tracebackText_ne_empty (e : PyErr) : tracebackText e ≠ "" := by
  intro h
  have hl := congrArg String.length h
  simp only [tracebackText] at hl
  rw [String.length_append, String.length_append] at hl
  have h1 : ("Traceback (most recent call last):\n").length = 35 := rfl
  have h2 : ("\n").length = 1 := rfl
  have h3 : ("" : String).length = 0 := rfl
  omega

/-- Claim C7: with setup succeeding and cleanup benign, `run` always returns
a result rather than raising: when timing the code fails, the result is
`success=false` carrying a non-empty traceback (and, by construction of the
failure record, no timing, loops or units); when timing succeeds the result
is `success=true` with the timing data.  A batch mapped over `run` therefore
gets one result per benchmark, failing entries marked `success=false`. -/
theorem run_isolates_execution_failures {E : Type} (b : Benchmark) (ns : E)
    (clockOf : E → Clock) :
    ∃ r : RunResult,
      Benchmark.run b { setupExec := .ok ns, clockOf := clockOf, cleanupExec := fun x => .ok x } =
          .ok (r, ns) ∧
        ((∃ e, magic_timeit (clockOf ns) b.ncalls b.«repeat» true = .error e ∧
            r = .failure (tracebackText e) ∧ tracebackText e ≠ "") ∨
          (∃ t, magic_timeit (clockOf ns) b.ncalls b.«repeat» true = .ok t ∧ r = .success t)) := by
  cases hmt : magic_timeit (clockOf ns) b.ncalls b.«repeat» true with
  | error e =>
    exact ⟨.failure (tracebackText e), by simp [Benchmark.run, hmt],
      .inl ⟨e, rfl, rfl, tracebackText_ne_empty e⟩⟩
  | ok t =>
    exact ⟨.success t, by simp [Benchmark.run, hmt], .inr ⟨t, rfl, rfl⟩⟩

/-! ### Claim C9 — degenerate inputs -/

/-- A never-raising clock yields one trial time per repeat. -/
theorem timerRepeat_okClock (f : Nat → Nat → ℚ) (r i n : Nat) :
    ∃ ts : List ℚ, timerRepeat (okClock f) i r n = .ok ts ∧ ts.length = r := by
  induction r generalizing i with
  | zero => exact ⟨[], rfl, rfl⟩
  | succ r ih =>
    obtain ⟨ts, hts, hlen⟩ := ih (i + 1)
    exact ⟨f i n :: ts, by simp [timerRepeat, okClock, hts], by simp [hlen]⟩

/-- Calibration against a never-raising clock cannot raise. -/
theorem calibrateLoop_okClock (f : Nat → Nat → ℚ) (k : Nat) :
    ∀ i number : Nat, ∃ p, calibrateLoop (okClock f) k i number = .ok p := by
  induction k with
  | zero => exact fun i number => ⟨(number, i), rfl⟩
  | succ k ih =>
    intro i number
    by_cases h : f i number ≥ 1 / 10
    · exact ⟨(number, i + 1), by simp only [calibrateLoop, okClock]; rw [if_pos h]⟩
    · obtain ⟨p, hp⟩ := ih (i + 1) (number * 10)
      exact ⟨p, by simp only [calibrateLoop, okClock]; rw [if_neg h]; exact hp⟩

/-- Claim C9 (amended): `magic_timeit` performs no input validation.  With an
explicit iteration count of 0 the computation runs the trials and then
raises `ZeroDivisionError` at the division by the iteration count; with
`repeat < 1` (i.e. 0 trials) `min` of the empty trial list raises
`ValueError` — whether or not an iteration count was given.  (Inside
`Benchmark.run` these exceptions are caught like any other timing failure.) -/
theorem magic_timeit_invalid_inputs_raise (f : Nat → Nat → ℚ) (rep : Nat) (fm : Bool)
    (nc : Option Nat) (hr : 1 ≤ rep) :
    magic_timeit (okClock f) (some 0) rep fm =
        .error { msg := "ZeroDivisionError: float division by zero" } ∧
      magic_timeit (okClock f) nc 0 fm =
        .error { msg := "ValueError: min arg is an empty sequence" } := by
  constructor
  · obtain ⟨ts, hts, hlen⟩ := timerRepeat_okClock f rep 0 0
    cases ts with
    | nil => rw [List.length_nil] at hlen; omega
    | cons a l => simp [magic_timeit, hts, List.min?]
  · cases nc with
    | none =>
      obtain ⟨⟨number, i⟩, hp⟩ := calibrateLoop_okClock f 9 0 1
      simp [magic_timeit, calibrate, hp, timerRepeat]
    | some n => simp [magic_timeit, timerRepeat]

/-- Claim C9, counterexample: the claim says an explicit iteration count of 0
"fails fast as an invalid input and does not perform a division by zero";
the code validates nothing and reaches the division `min(...) / number` with
`number = 0`, raising `ZeroDivisionError` — the failure IS the division by
zero. -/
theorem zero_iterations_reaches_division_by_zero :
    magic_timeit (okClock fun _ _ => 0) (some 0) 3 true =
      .error { msg := "ZeroDivisionError: float division by zero" } := by
  simp [magic_timeit, timerRepeat, okClock, List.min?]

/-- Claim C9, witness: the invalid inputs `iterations = 0` (with
`repeat = 3`) and `repeat = 0` (with `iterations = 5`) at a constant zero
clock. -/
theorem magic_timeit_invalid_inputs_raise_witness :
    magic_timeit (okClock fun _ _ => (0 : ℚ)) (some 0) 3 true =
        .error { msg := "ZeroDivisionError: float division by zero" } ∧
      magic_timeit (okClock fun _ _ => (0 : ℚ)) (some 5) 0 true =
        .error { msg := "ValueError: min arg is an empty sequence" } :=
  magic_timeit_invalid_inputs_raise (fun _ _ => 0) 3 true (some 5) (by omega)

/-! ### Claim C3 — best-of-N -/

/-- Claim C3: for any measurement with an explicit iteration count `n ≥ 1`
whose `repeat` trials yield the times `ts` (so at least one trial ran and
`min` is defined), the result's per-iteration time is the minimum of the
trial times divided by `n` — not the mean — and the reported `timing` is
that value scaled into the chosen unit, with `loops = n` and the trial count
echoed; moreover the `repeat` count defaults to 3. -/
theorem magic_timeit_best_of_n (c : Clock) (n rep : Nat) (fm : Bool) (hn : 1 ≤ n)
    (ts : List ℚ) (hts : timerRepeat c 0 rep n = .ok ts) (m : ℚ) (hm : ts.min? = some m) :
    (∃ t, magic_timeit c (some n) rep fm = .ok t ∧ t.loops = n ∧ t.«repeat» = rep ∧
        t.timing = m / (n : ℚ) * scaling.getD (pyOrder fm (m / (n : ℚ))) 0) ∧
      ∀ code setup : String, ({ code := code, setup := setup } : Benchmark).«repeat» = 3 := by
  have key : magic_timeit c (some n) rep fm =
      .ok { loops := n
            «repeat» := rep
            timing := m / (n : ℚ) * scaling.getD (pyOrder fm (m / (n : ℚ))) 0
            units := unitNames.getD (pyOrder fm (m / (n : ℚ))) "ns" } := by
    simp [magic_timeit, hts, hm, show ¬ n = 0 by omega]
  exact ⟨⟨_, key, rfl, rfl, rfl⟩, fun _ _ => rfl⟩

/-- Claim C3, witness: the spec's example — trial times `[5, 2, 8]` with
`repeat = 3` and one iteration per trial — reports `2 / 1` scaled to
milliseconds (the forced unit), i.e. 2000, not the mean `5`. -/
theorem magic_timeit_best_of_n_witness :
    ∃ t, magic_timeit (listClock [5, 2, 8]) (some 1) 3 true = .ok t ∧ t.timing = 2000 := by
  obtain ⟨⟨t, h1, -, -, h4⟩, -⟩ :=
    magic_timeit_best_of_n (listClock [5, 2, 8]) 1 3 true (by omega) [5, 2, 8] rfl 2
      (by norm_num [List.min?, min_def])
  refine ⟨t, h1, ?_⟩
  rw [h4]
  norm_num [pyOrder, scaling]

/-! ### Claim C10 — run always forces milliseconds -/

/-- A successful `magic_timeit` with `force_ms` set reports milliseconds. -/
theorem magic_timeit_force_ms_units (c : Clock) (nc : Option Nat) (rep : Nat) (t : TimingOk)
    (h : magic_timeit c nc rep true = .ok t) : t.units = "ms" := by
  unfold magic_timeit at h
  repeat' split at h
  all_goals first
    | (simp only [Except.ok.injEq] at h; subst h; rfl)
    | exact Except.noConfusion h

/-- Claim C10: every successful result `Benchmark.run` returns has
`units = "ms"`, for every benchmark definition and every behaviour of setup,
timed code and cleanup — `run` always calls the timer with `force_ms=True`,
so the adaptive unit selection is never exercised through `run`. -/
theorem run_success_always_milliseconds {E : Type} (b : Benchmark) (bhv : RunBehavior E)
    (t : TimingOk) (ns : E) (h : Benchmark.run b bhv = .ok (.success t, ns)) :
    t.units = "ms" := by
  obtain ⟨se, co, cl⟩ := bhv
  cases se with
  | error e => simp [Benchmark.run] at h
  | ok ns0 =>
    cases hmt : magic_timeit (co ns0) b.ncalls b.«repeat» true with
    | error e =>
      cases hcl : cl ns0 <;> simp [Benchmark.run, hmt, hcl] at h
    | ok t0 =>
      cases hcl : cl ns0 with
      | error e => simp [Benchmark.run, hmt, hcl] at h
      | ok ns2 =>
        simp only [Benchmark.run, hmt, hcl, Except.ok.injEq, Prod.mk.injEq,
          RunResult.success.injEq] at h
        obtain ⟨h1, -⟩ := h
        subst h1
        exact magic_timeit_force_ms_units _ _ _ _ hmt

/-- A concrete benchmark for the C10 witness. -/
def bWitness : Benchmark := { code := "x = f()", setup := "def f(): return 1" }

/-- A concrete run behaviour for the C10 witness: setup builds environment 0,
every timed call takes one second, cleanup leaves the environment alone. -/
def bhvWitness : RunBehavior Nat :=
  { setupExec := .ok 0, clockOf := fun _ => oneTrial 1, cleanupExec := fun n => .ok n }

/-- The timing result `run bWitness bhvWitness` produces. -/
def tWitness : TimingOk := { loops := 1, «repeat» := 3, timing := 1000, units := "ms" }

/-- Claim C10, witness: a concrete calibrated run (one-second trials, so
calibration stops at one iteration) whose successful result carries "ms". -/
theorem run_success_always_milliseconds_witness : tWitness.units = "ms" :=
  run_success_always_milliseconds bWitness bhvWitness tWitness 0
    (by norm_num [Benchmark.run, bWitness, bhvWitness, tWitness, magic_timeit, calibrate,
      calibrateLoop, timerRepeat, oneTrial, List.min?, pyOrder, scaling, unitNames])

/-! ### Claim C4 — unit selection -/

/-- Claim C4, counterexample: a per-iteration time of exactly 0.0005 seconds
(1/2000) with `force_ms` unset selects MICROseconds, not milliseconds:
`floor(log10(0.0005)) = -4`, floor division by 3 gives -2, order 2, and the
reported value is 500 us. -/
theorem half_millisecond_selects_microseconds :
    magic_timeit (oneTrial (1 / 2000)) (some 1) 1 false =
        .ok { loops := 1, «repeat» := 1, timing := 500, units := "us" } ∧
      "us" ≠ "ms" := by
  refine ⟨?_, by decide⟩
  have hr : (0 : ℚ) < 1 / 2000 := by norm_num
  have hlog : Int.log 10 ((1 : ℚ) / 2000) = -4 := by
    have h1 := (Int.zpow_le_iff_le_log (by norm_num : (1 : ℕ) < 10) hr).mp
      (by rw [show (((10 : ℕ) : ℚ)) ^ (-4 : ℤ) = 1 / 10000 by push_cast; norm_num]; norm_num)
    have h2 := (Int.lt_zpow_iff_log_lt (by norm_num : (1 : ℕ) < 10) hr).mp
      (by rw [show (((10 : ℕ) : ℚ)) ^ (-3 : ℤ) = 1 / 1000 by push_cast; norm_num]; norm_num)
    omega
  have hfd : Int.fdiv (-4 : ℤ) 3 = -2 := by decide
  have hord : pyOrder false (1 / 2000) = 2 := by
    unfold pyOrder
    rw [if_neg (by simp), if_pos (by constructor <;> norm_num), hlog, hfd]
    omega
  simp only [magic_timeit, timerRepeat, oneTrial, List.min?, List.foldl_nil,
    Nat.cast_one, div_one, hord]
  norm_num [scaling, unitNames]

/-- Claim C4 (amended): `magic_timeit` always reports milliseconds when
`force_ms` is set; otherwise it picks seconds for a per-iteration time in
`[1, ∞)` (in particular exactly 1.0 s gives seconds, and so does everything
at or above 1000 s), milliseconds for `[0.001, 1)`, microseconds for
`[0.000001, 0.001)` (so 0.0005 s is microseconds, not milliseconds), and
nanoseconds for non-positive times and times below `0.000001`; the reported
timing value is the per-iteration time multiplied by the chosen unit's
scale, tagged with that unit's name. -/
theorem magic_timeit_unit_selection (best : ℚ) (fm : Bool) :
    (∃ t, magic_timeit (oneTrial best) (some 1) 1 fm = .ok t ∧
        t.timing = best * scaling.getD (pyOrder fm best) 0 ∧
        t.units = unitNames.getD (pyOrder fm best) "ns") ∧
      pyOrder true best = 1 ∧
      ((1 ≤ best ∧ pyOrder false best = 0) ∨
        (1 / 1000 ≤ best ∧ best < 1 ∧ pyOrder false best = 1) ∨
        (1 / 1000000 ≤ best ∧ best < 1 / 1000 ∧ pyOrder false best = 2) ∨
        ((best ≤ 0 ∨ (0 < best ∧ best < 1 / 1000000)) ∧ pyOrder false best = 3)) := by
  refine ⟨?_, rfl, ?_⟩
  · have key : magic_timeit (oneTrial best) (some 1) 1 fm =
        .ok { loops := 1, «repeat» := 1,
              timing := best * scaling.getD (pyOrder fm best) 0,
              units := unitNames.getD (pyOrder fm best) "ns" } := by
      simp only [magic_timeit, timerRepeat, oneTrial, List.min?, List.foldl_nil,
        Nat.cast_one, div_one]
      norm_num
    exact ⟨_, key, rfl, rfl⟩
  · rcases le_or_lt 1 best with hge1 | hlt1
    · refine .inl ⟨hge1, ?_⟩
      have hpos : (0 : ℚ) < best := lt_of_lt_of_le zero_lt_one hge1
      rcases lt_or_le best 1000 with hlt1000 | hge1000
      · have hlow : (0 : ℤ) ≤ Int.log 10 best :=
          (Int.zpow_le_iff_le_log (by norm_num) hpos).mp (by simpa using hge1)
        have hhigh : Int.log 10 best < 3 :=
          (Int.lt_zpow_iff_log_lt (by norm_num) hpos).mp
            (by rw [show (((10 : ℕ) : ℚ)) ^ (3 : ℤ) = 1000 by push_cast; norm_num]
                exact hlt1000)
        have hfd : Int.fdiv (Int.log 10 best) 3 = 0 := by
          rw [Int.fdiv_eq_ediv _ (by norm_num)]; omega
        simp only [pyOrder, hfd]
        norm_num [hpos, hlt1000]
      · have h1 : ¬ (best < 1000) := not_lt.mpr hge1000
        simp [pyOrder, h1, hge1000]
    rcases le_or_lt (1 / 1000) best with hms | hlt3
    · refine .inr (.inl ⟨hms, hlt1, ?_⟩)
      have hpos : (0 : ℚ) < best := lt_of_lt_of_le (by norm_num) hms
      have hlow : (-3 : ℤ) ≤ Int.log 10 best :=
        (Int.zpow_le_iff_le_log (by norm_num) hpos).mp
          (by rw [show (((10 : ℕ) : ℚ)) ^ (-3 : ℤ) = 1 / 1000 by push_cast; norm_num]
              exact hms)
      have hhigh : Int.log 10 best < 0 :=
        (Int.lt_zpow_iff_log_lt (by norm_num) hpos).mp (by simpa using hlt1)
      have hfd : Int.fdiv (Int.log 10 best) 3 = -1 := by
        rw [Int.fdiv_eq_ediv _ (by norm_num)]; omega
      have hlt1000 : best < 1000 := by linarith
      simp only [pyOrder, hfd]
      norm_num [hpos, hlt1000]
    rcases le_or_lt (1 / 1000000) best with hus | hlt6
    · refine .inr (.inr (.inl ⟨hus, hlt3, ?_⟩))
      have hpos : (0 : ℚ) < best := lt_of_lt_of_le (by norm_num) hus
      have hlow : (-6 : ℤ) ≤ Int.log 10 best :=
        (Int.zpow_le_iff_le_log (by norm_num) hpos).mp
          (by rw [show (((10 : ℕ) : ℚ)) ^ (-6 : ℤ) = 1 / 1000000 by push_cast; norm_num]
              exact hus)
      have hhigh : Int.log 10 best < -3 :=
        (Int.lt_zpow_iff_log_lt (by norm_num) hpos).mp
          (by rw [show (((10 : ℕ) : ℚ)) ^ (-3 : ℤ) = 1 / 1000 by push_cast; norm_num]
              exact hlt3)
      have hfd : Int.fdiv (Int.log 10 best) 3 = -2 := by
        rw [Int.fdiv_eq_ediv _ (by norm_num)]; omega
      have hlt1000 : best < 1000 := by linarith
      have hval : (min (-(Int.fdiv (Int.log 10 best) 3)) 3).toNat = 2 := by omega
      simp only [pyOrder, hval]
      norm_num [hpos, hlt1000]
    · rcases le_or_lt best 0 with hle0 | hpos
      · refine .inr (.inr (.inr ⟨.inl hle0, ?_⟩))
        have h1 : ¬ (0 < best) := not_lt.mpr hle0
        have h2 : ¬ ((1000 : ℚ) ≤ best) := by intro hc; linarith
        simp [pyOrder, h1, h2]
      · refine .inr (.inr (.inr ⟨.inr ⟨hpos, hlt6⟩, ?_⟩))
        have hhigh : Int.log 10 best < -6 :=
          (Int.lt_zpow_iff_log_lt (by norm_num) hpos).mp
            (by rw [show (((10 : ℕ) : ℚ)) ^ (-6 : ℤ) = 1 / 1000000 by push_cast; norm_num]
                exact hlt6)
        have hfd : Int.fdiv (Int.log 10 best) 3 ≤ -3 := by
          rw [Int.fdiv_eq_ediv _ (by norm_num)]; omega
        have hlt1000 : best < 1000 := by linarith
        have hmin : (min (-(Int.fdiv (Int.log 10 best) 3)) 3).toNat = 3 := by omega
        simp only [pyOrder, hmin]
        norm_num [hpos, hlt1000]
